import Mathlib

/-!
Shallow embedding of the rqlite auto-backup uploader
(`auto/backup/uploader.go`).

The Go code is a periodic upload service: each cycle stages a snapshot in a
fresh temp file, optionally gzip-compresses it in place, digests it, skips the
transmission when the digest equals the digest of the last successful upload,
and otherwise streams the file to a storage client through a byte-counting
reader, updating expvar counters and the last-upload metadata.

Modelling choices:
* The file system is a map from paths to byte contents
  (`FS := String → Option Content`); bytes are `Nat`.
* External effects (temp-file creation, the data provider, I/O failures, the
  storage client result, the bytes the client read, clock readings) are
  supplied by environment records (`CompressEnv`, `CycleEnv`); the embedded
  functions are deterministic in state plus environment.
* expvar counters are `Int` (Go int64; counter overflow is not modelled).
* gzip is an arbitrary deterministic function `gz : Content → Content`,
  a parameter of the definitions: no claim depends on the codec itself.
* `SHA256Sum`, `FileSHA256` and `SHA256Sum.Equals` live outside the given
  source file; they are modelled from the spec (section 4.1 and section 3).
-/

namespace RqliteUploader

/-- Byte contents of a file. -/
abbrev Content := List Nat

/-- A file system: paths to contents; `none` means the path does not exist. -/
abbrev FS := String → Option Content

/-- Write (create or truncate-and-replace) the file at `p`. -/
def fsWrite (fs : FS) (p : String) (c : Content) : FS :=
  fun x => if x = p then some c else fs x

/-- Remove the file at `p` (`os.Remove`; idempotent in effect on the map). -/
def fsRemove (fs : FS) (p : String) : FS :=
  fun x => if x = p then none else fs x

/-- Rename `src` to `dst` (`os.Rename`): `dst` gets the content of `src`,
`src` disappears. -/
def fsRename (fs : FS) (src dst : String) : FS :=
  fun x => if x = dst then fs src else if x = src then none else fs x

/-- Error values returned by the Go functions; one constructor per failure
site, standing in for the opaque Go `error` values. -/
inductive GoErr where
  | tempFail
  | provideFail
  | openFail
  | createFail
  | copyFail
  | closeFail
  | renameFail
  | digestFail
  | uploadFail
  | eof
  deriving DecidableEq

/-- Modelled from the spec (section 3 and section 4.1): `SHA256Sum` is not in
the given source file. A digest is deterministic in the byte content of the
file and two digests are equal iff the contents are byte-identical, so the
digest is modelled as the content itself. -/
abbrev SHA256Sum := Content

/-- Modelled from the spec (section 3): `SHA256Sum.Equals` is not in the given
source file. The "no digest" sentinel (`u.lastSum` is nil) never equals a real
digest computed from a file. -/
def SHA256Sum.Equals (s : SHA256Sum) (last : Option SHA256Sum) : Bool :=
  match last with
  | none => false
  | some t => decide (s = t)

/-- Modelled from the spec (section 4.1): `FileSHA256` is not in the given
source file. It digests the file at `path`, failing when the path cannot be
read; `readOk = false` injects an I/O read failure on an existing file. -/
def FileSHA256 (fs : FS) (path : String) (readOk : Bool) : Except GoErr SHA256Sum :=
  if !readOk then .error .digestFail
  else
    match fs path with
    | none => .error .digestFail
    | some c => .ok c

/-- The expvar counters of the module (`num_uploads_ok`, `num_uploads_fail`,
`num_uploads_skipped`, `total_upload_bytes`, `last_upload_bytes`), as Go
int64 values. -/
structure Stats where
  numUploadsOK : Int
  numUploadsFail : Int
  numUploadsSkipped : Int
  totalUploadBytes : Int
  lastUploadBytes : Int
  deriving DecidableEq

/-- The mutable per-instance state of the `Uploader` service (the fields of
the Go struct that the upload cycle reads or writes; the storage client, data
provider, interval and logger are externalised). Time is an abstract `Nat`
clock reading. -/
structure Uploader where
  compress : Bool
  disableSumCheck : Bool
  lastUploadTime : Nat
  lastUploadDuration : Nat
  lastSum : Option SHA256Sum
  deriving DecidableEq

/-- Environment of one `compressIfNeeded` invocation: the temp name
`tempFilename` yields (`none` = temp creation fails) and the success of each
I/O sub-step; `leftoverBytes` is whatever partial output a failed copy or a
failed gzip finalize left in the temp output file. -/
structure CompressEnv where
  tempName : Option String
  openOk : Bool
  createOk : Bool
  copyOk : Bool
  closeOk : Bool
  renameOk : Bool
  leftoverBytes : Content
  deriving DecidableEq

/-- Embedding of `compressFromTo(from, to)`: open `src`, create (truncate)
`dst`, copy `src` through a gzip writer into `dst`, close the gzip writer.
The copy reads the file as it is after the truncating create, matching the
file-descriptor semantics of the Go code. -/
def compressFromTo (gz : Content → Content) (fs : FS) (src dst : String)
    (env : CompressEnv) : Option GoErr × FS :=
  match fs src with
  | none => (some .openFail, fs)
  | some _ =>
    if !env.openOk then (some .openFail, fs)
    else if !env.createOk then (some .createFail, fs)
    else
      let fs1 := fsWrite fs dst []
      let data := (fs1 src).getD []
      if !env.copyOk then (some .copyFail, fsWrite fs1 dst env.leftoverBytes)
      else if !env.closeOk then (some .closeFail, fsWrite fs1 dst env.leftoverBytes)
      else (none, fsWrite fs1 dst (gz data))

/-- Embedding of `Uploader.compressIfNeeded(path)`: no-op unless compression
is enabled; otherwise compress into a fresh temp file and rename it over
`path`, removing the temp file on every exit (the deferred `os.Remove`). -/
def Uploader.compressIfNeeded (u : Uploader) (gz : Content → Content) (fs : FS)
    (path : String) (env : CompressEnv) : Option GoErr × FS :=
  if !u.compress then (none, fs)
  else
    match env.tempName with
    | none => (some .tempFail, fs)
    | some q =>
      let fs1 := fsWrite fs q []
      match compressFromTo gz fs1 path q env with
      | (some e, fs2) => (some e, fsRemove fs2 q)
      | (none, fs2) =>
        if !env.renameOk then (some .renameFail, fsRemove fs2 q)
        else (none, fsRemove (fsRename fs2 q path) q)

/-- Environment of one upload cycle: the staging temp name, the outcome of
the data provider (the content it writes, or its error), the compression
environment, the digest read success, the `os.Open` success, the storage
client result (`none` = success), the byte count the counting reader holds
after the client returns, and three clock readings (`time.Now()` before the
upload, `time.Now()` stored into `lastUploadTime`, and the reading
`time.Since` uses for `lastUploadDuration`). -/
structure CycleEnv where
  tempName : Option String
  provided : Except GoErr Content
  cenv : CompressEnv
  digestReadOk : Bool
  openOk : Bool
  uploadResult : Option GoErr
  bytesRead : Nat
  startTime : Nat
  endTime : Nat
  sinceTime : Nat

/-- Result of one upload cycle: the returned error (`none` = nil), the
uploader state, the counters, the file system, plus two observers: the staged
temp path when `tempFilename` succeeded, whether `storageClient.Upload` was
invoked, whether the cycle reached the dedup decision point (the digest was
computed successfully), and whether the dedup check skipped the cycle. -/
structure CycleResult where
  err : Option GoErr
  u : Uploader
  st : Stats
  fs : FS
  tempPath : Option String
  uploadInvoked : Bool
  reachedDecision : Bool
  dedupSkipped : Bool

/-- Embedding of `Uploader.upload(ctx)` (the body of one cycle): create the
staging temp file (removed on every later exit by the deferred `os.Remove`),
have the provider fill it, compress if needed, digest it, skip when the digest
equals `lastSum` and the sum check is enabled, otherwise open the file and
hand it to the storage client through the counting reader, updating counters
and last-upload metadata exactly as the Go code does. -/
def Uploader.upload (u : Uploader) (gz : Content → Content) (st : Stats)
    (fs : FS) (env : CycleEnv) : CycleResult :=
  match env.tempName with
  | none => ⟨some .tempFail, u, st, fs, none, false, false, false⟩
  | some p =>
    let fs1 := fsWrite fs p []
    match env.provided with
    | .error e => ⟨some e, u, st, fsRemove fs1 p, some p, false, false, false⟩
    | .ok c =>
      let fs2 := fsWrite fs1 p c
      match u.compressIfNeeded gz fs2 p env.cenv with
      | (some e, fs3) => ⟨some e, u, st, fsRemove fs3 p, some p, false, false, false⟩
      | (none, fs3) =>
        match FileSHA256 fs3 p env.digestReadOk with
        | .error e => ⟨some e, u, st, fsRemove fs3 p, some p, false, false, false⟩
        | .ok sum =>
          if !u.disableSumCheck && sum.Equals u.lastSum then
            ⟨none, u,
              { st with numUploadsSkipped := st.numUploadsSkipped + 1 },
              fsRemove fs3 p, some p, false, true, true⟩
          else if !env.openOk then
            ⟨some .openFail, u, st, fsRemove fs3 p, some p, false, true, false⟩
          else
            match env.uploadResult with
            | some e =>
              ⟨some e, u,
                { st with numUploadsFail := st.numUploadsFail + 1 },
                fsRemove fs3 p, some p, true, true, false⟩
            | none =>
              ⟨none,
                { u with
                    lastSum := some sum,
                    lastUploadTime := env.endTime,
                    lastUploadDuration := env.sinceTime - env.startTime },
                { st with
                    numUploadsOK := st.numUploadsOK + 1,
                    totalUploadBytes := st.totalUploadBytes + env.bytesRead,
                    lastUploadBytes := (env.bytesRead : Int) },
                fsRemove fs3 p, some p, true, true, false⟩

/-- Result of one scheduler tick. -/
structure TickResult where
  u : Uploader
  st : Stats
  fs : FS
  cycleRan : Bool
  uploadInvoked : Bool

/-- Embedding of the per-tick body of `Uploader.Start`: if the enablement
gate reports disabled, clear `lastSum` and run no cycle; otherwise run one
upload cycle, whose error is only logged (the loop continues either way). -/
def Uploader.tick (u : Uploader) (gz : Content → Content) (st : Stats)
    (fs : FS) (enabled : Bool) (env : CycleEnv) : TickResult :=
  if !enabled then ⟨{ u with lastSum := none }, st, fs, false, false⟩
  else
    let r := u.upload gz st fs env
    ⟨r.u, r.st, r.fs, true, r.uploadInvoked⟩

/-- Run a sequence of upload cycles, threading state, counters and file
system (the scheduler loop restricted to enabled ticks). -/
def runCycles (gz : Content → Content) (u : Uploader) (st : Stats) (fs : FS) :
    List CycleEnv → Uploader × Stats × FS
  | [] => (u, st, fs)
  | e :: es =>
    let r := u.upload gz st fs e
    runCycles gz r.u r.st r.fs es

/-- Script of the results an underlying reader produces, one entry per `Read`
call: the bytes written into the buffer and the returned error. A drained
script behaves like a Go reader at end of stream: zero bytes and an error. -/
abbrev ReadScript := List (Content × Option GoErr)

/-- Embedding of the `countingReader` struct. -/
structure countingReader where
  reader : ReadScript
  count : Int

/-- Embedding of `countingReader.Read`: perform the underlying read, add the
returned byte count to `count`, and pass bytes and error through unaltered. -/
def countingReader.Read (c : countingReader) :
    (Content × Option GoErr) × countingReader :=
  match c.reader with
  | [] => (([], some .eof), c)
  | r :: rs => (r, ⟨rs, c.count + r.1.length⟩)

/-- One `Read` call against the bare underlying reader script. -/
def plainRead (s : ReadScript) : (Content × Option GoErr) × ReadScript :=
  match s with
  | [] => (([], some .eof), [])
  | r :: rs => (r, rs)

/-- Run `k` `Read` calls on the counting wrapper, collecting the outputs. -/
def runCounting (c : countingReader) : Nat → List (Content × Option GoErr) × countingReader
  | 0 => ([], c)
  | k + 1 =>
    let (o, c1) := c.Read
    let (os, c2) := runCounting c1 k
    (o :: os, c2)

/-- Run `k` `Read` calls on the bare underlying reader, collecting outputs. -/
def runPlain (s : ReadScript) : Nat → List (Content × Option GoErr) × ReadScript
  | 0 => ([], s)
  | k + 1 =>
    let (o, s1) := plainRead s
    let (os, s2) := runPlain s1 k
    (o :: os, s2)

/-- Content of the staged file after the conditional compression step. -/
def stagedContent (gz : Content → Content) (compress : Bool) (c : Content) : Content :=
  if compress then gz c else c

/-- Success of every sub-step of one `compressIfNeeded` invocation against
source path `p`, with `q` the temp name `tempFilename` yields; `q ≠ p`
reflects the freshness guarantee of `os.CreateTemp`. -/
def CompressOK (cenv : CompressEnv) (q p : String) : Prop :=
  cenv.tempName = some q ∧ q ≠ p ∧ cenv.openOk = true ∧ cenv.createOk = true ∧
  cenv.copyOk = true ∧ cenv.closeOk = true ∧ cenv.renameOk = true

/-- The staging phase of a cycle succeeds: the temp file is created at `p`,
the provider writes `c` there, compression (when enabled for the instance)
succeeds using the fresh temp name `q`, and the digest read succeeds. -/
def StageOK (compress : Bool) (env : CycleEnv) (p q : String) (c : Content) : Prop :=
  env.tempName = some p ∧ env.provided = Except.ok c ∧ env.digestReadOk = true ∧
  (compress = true → CompressOK env.cenv q p)

/-- A sequence of cycle environments in which every cycle transmits
successfully: each cycle stages cleanly, opens the staged file, the storage
client succeeds, and the dedup check passes (the sum check is disabled or the
staged digest differs from the running last digest, which the predicate
threads forward exactly as a successful upload updates it). -/
def AllTransmit (gz : Content → Content) (compress dsc : Bool) :
    Option SHA256Sum → List CycleEnv → Prop
  | _, [] => True
  | last, e :: es =>
    ∃ p q c, StageOK compress e p q c ∧ e.openOk = true ∧ e.uploadResult = none ∧
      (dsc = true ∨ last ≠ some (stagedContent gz compress c)) ∧
      AllTransmit gz compress dsc (some (stagedContent gz compress c)) es

/-- Identity codec standing in for gzip when instantiating witnesses. -/
def gzId : Content → Content := fun c => c

/-- Sample uploader: compression off, dedup on, last digest `[1, 2]`. -/
def wU1 : Uploader := ⟨false, false, 0, 0, some [1, 2]⟩

/-- Sample uploader: compression off, dedup on, no last digest. -/
def wU2 : Uploader := ⟨false, false, 0, 0, none⟩

/-- Sample uploader: compression on, dedup on, no last digest. -/
def wU3 : Uploader := ⟨true, false, 0, 0, none⟩

/-- Sample stats, all counters zero. -/
def wSt : Stats := ⟨0, 0, 0, 0, 0⟩

/-- Sample empty file system. -/
def wFs : FS := fun _ => none

/-- Sample compression environment, every sub-step succeeding. -/
def wCenv : CompressEnv := ⟨some "q", true, true, true, true, true, []⟩

/-- Sample cycle environment: staging succeeds with content `[1, 2]`, the
open succeeds, the storage client succeeds after reading 5 bytes. -/
def wEnv1 : CycleEnv :=
  ⟨some "t", Except.ok [1, 2], wCenv, true, true, none, 5, 0, 3, 4⟩

/-- Sample cycle environment like `wEnv1` but the storage client fails. -/
def wEnvFail : CycleEnv :=
  ⟨some "t", Except.ok [1, 2], wCenv, true, true, some .uploadFail, 5, 0, 3, 4⟩

/-- Sample cycle environment like `wEnv1` but the post-dedup open fails. -/
def wEnvOpen : CycleEnv :=
  ⟨some "t", Except.ok [1, 2], wCenv, true, false, none, 5, 0, 3, 4⟩

/-- Sample file system holding `[3, 4]` at path `src`. -/
def wFsSrc : FS := fun x => if x = "src" then some [3, 4] else none

@[simp] theorem fsWrite_self (fs : FS) (p : String) (c : Content) :
    fsWrite fs p c p = some c := by simp [fsWrite]

@[simp] theorem fsWrite_ne (fs : FS) (p x : String) (c : Content) (h : x ≠ p) :
    fsWrite fs p c x = fs x := by simp [fsWrite, h]

@[simp] theorem fsRemove_self (fs : FS) (p : String) :
    fsRemove fs p p = none := by simp [fsRemove]

@[simp] theorem fsRemove_ne (fs : FS) (p x : String) (h : x ≠ p) :
    fsRemove fs p x = fs x := by simp [fsRemove, h]

/-- A digest compares equal to the last digest exactly when the last digest
is present and byte-identical (the "no digest" sentinel equals nothing). -/
theorem Equals_eq_true_iff (s : SHA256Sum) (l : Option SHA256Sum) :
    SHA256Sum.Equals s l = true ↔ l = some s := by
  cases l <;> simp [SHA256Sum.Equals, eq_comm]

/-- The dedup guard of the cycle is false when the sum check is disabled or
the last digest differs from the staged digest. -/
theorem dedup_cond_false (dsc : Bool) (s : SHA256Sum) (last : Option SHA256Sum)
    (hpass : dsc = true ∨ last ≠ some s) :
    (!dsc && SHA256Sum.Equals s last) = false := by
  rcases hpass with hd | hn
  · simp [hd]
  · have h2 : SHA256Sum.Equals s last = false := by
      cases hE : SHA256Sum.Equals s last
      · rfl
      · exact absurd ((Equals_eq_true_iff _ _).1 hE) hn
    simp [h2]

/-- When every sub-step succeeds, `compressIfNeeded` returns nil and leaves
the staged content (compressed when enabled) at the source path. -/
theorem compressIfNeeded_ok (u : Uploader) (gz : Content → Content) (fs : FS)
    (p q : String) (c : Content) (cenv : CompressEnv) (hfs : fs p = some c)
    (hc : u.compress = true → CompressOK cenv q p) :
    ∃ fsc : FS, u.compressIfNeeded gz fs p cenv = (none, fsc) ∧
      fsc p = some (stagedContent gz u.compress c) := by
  cases hcm : u.compress with
  | false =>
    refine ⟨fs, ?_, ?_⟩
    · simp [Uploader.compressIfNeeded, hcm]
    · simp [stagedContent, hcm, hfs]
  | true =>
    obtain ⟨g1, g2, g3, g4, g5, g6, g7⟩ := hc hcm
    refine ⟨fsRemove (fsRename (fsWrite (fsWrite (fsWrite fs q []) q [])
      q (gz c)) q p) q, ?_, ?_⟩
    · simp [Uploader.compressIfNeeded, hcm, g1, compressFromTo, g3, g4, g5, g6,
        g7, Ne.symm g2, hfs, fsWrite, fsRename, fsRemove]
    · simp [stagedContent, hcm, Ne.symm g2, fsRemove, fsRename, fsWrite, g2]

/-- Master reduction: when the staging phase succeeds with staged content
`c`, one upload cycle is exactly the dedup decision followed by the open and
transmit steps of the Go code, over some final staged file system `fsc`. -/
theorem upload_staged (gz : Content → Content) (u : Uploader) (st : Stats)
    (fs : FS) (env : CycleEnv) (p q : String) (c : Content)
    (h : StageOK u.compress env p q c) :
    ∃ fsc : FS,
      u.upload gz st fs env =
        if !u.disableSumCheck && SHA256Sum.Equals (stagedContent gz u.compress c) u.lastSum then
          ⟨none, u, { st with numUploadsSkipped := st.numUploadsSkipped + 1 },
            fsRemove fsc p, some p, false, true, true⟩
        else if !env.openOk then
          ⟨some .openFail, u, st, fsRemove fsc p, some p, false, true, false⟩
        else
          match env.uploadResult with
          | some e =>
            ⟨some e, u, { st with numUploadsFail := st.numUploadsFail + 1 },
              fsRemove fsc p, some p, true, true, false⟩
          | none =>
            ⟨none,
              { u with lastSum := some (stagedContent gz u.compress c),
                       lastUploadTime := env.endTime,
                       lastUploadDuration := env.sinceTime - env.startTime },
              { st with numUploadsOK := st.numUploadsOK + 1,
                        totalUploadBytes := st.totalUploadBytes + env.bytesRead,
                        lastUploadBytes := (env.bytesRead : Int) },
              fsRemove fsc p, some p, true, true, false⟩ := by
  obtain ⟨h1, h2, h3, h4⟩ := h
  obtain ⟨fsc, hcomp, hcp⟩ :=
    compressIfNeeded_ok u gz (fsWrite (fsWrite fs p []) p c) p q c env.cenv
      (by simp) h4
  refine ⟨fsc, ?_⟩
  unfold Uploader.upload
  simp only [h1, h2, hcomp, FileSHA256, h3, hcp, Bool.not_true, Bool.false_eq_true,
    if_false]

/-- Exhaustive description of one upload cycle: it is a pre-decision failure
(temp creation, provider, compression or digest), a dedup skip, an open
failure after the decision, a transmit failure, or a transmit success, each
with the exact state, counter and file-system outcome of the Go code. -/
theorem upload_cases (gz : Content → Content) (u : Uploader) (st : Stats)
    (fs : FS) (env : CycleEnv) :
    (u.upload gz st fs env = ⟨some .tempFail, u, st, fs, none, false, false, false⟩) ∨
    (∃ p fsc e, u.upload gz st fs env =
        ⟨some e, u, st, fsRemove fsc p, some p, false, false, false⟩) ∨
    (∃ p fsc, u.upload gz st fs env =
        ⟨none, u, { st with numUploadsSkipped := st.numUploadsSkipped + 1 },
          fsRemove fsc p, some p, false, true, true⟩) ∨
    (∃ p fsc, u.upload gz st fs env =
        ⟨some .openFail, u, st, fsRemove fsc p, some p, false, true, false⟩) ∨
    (∃ p fsc e, u.upload gz st fs env =
        ⟨some e, u, { st with numUploadsFail := st.numUploadsFail + 1 },
          fsRemove fsc p, some p, true, true, false⟩) ∨
    (∃ p fsc sum, u.upload gz st fs env =
        ⟨none, { u with lastSum := some sum, lastUploadTime := env.endTime,
                        lastUploadDuration := env.sinceTime - env.startTime },
          { st with numUploadsOK := st.numUploadsOK + 1,
                    totalUploadBytes := st.totalUploadBytes + env.bytesRead,
                    lastUploadBytes := (env.bytesRead : Int) },
          fsRemove fsc p, some p, true, true, false⟩) := by
  unfold Uploader.upload
  rcases htn : env.tempName with _ | p <;> simp only [htn]
  · left; trivial
  · rcases hpv : env.provided with e | c <;> simp only [hpv]
    · exact Or.inr (Or.inl ⟨p, fsWrite fs p [], e, rfl⟩)
    · rcases hcm : u.compressIfNeeded gz (fsWrite (fsWrite fs p []) p c) p env.cenv
        with ⟨oe, fs3⟩
      cases oe with
      | some e => exact Or.inr (Or.inl ⟨p, fs3, e, rfl⟩)
      | none =>
        rcases hsha : FileSHA256 fs3 p env.digestReadOk with e | sum <;> simp only [hsha]
        · exact Or.inr (Or.inl ⟨p, fs3, e, rfl⟩)
        · cases hsk : (!u.disableSumCheck && SHA256Sum.Equals sum u.lastSum)
          · cases hop : env.openOk
            · exact Or.inr (Or.inr (Or.inr (Or.inl ⟨p, fs3, rfl⟩)))
            · rcases hur : env.uploadResult with _ | e
              · exact Or.inr (Or.inr (Or.inr (Or.inr (Or.inr ⟨p, fs3, sum, rfl⟩))))
              · exact Or.inr (Or.inr (Or.inr (Or.inr (Or.inl ⟨p, fs3, e, rfl⟩))))
          · exact Or.inr (Or.inr (Or.inl ⟨p, fs3, rfl⟩))

/-- Over a run of successful transmissions, the cumulative-bytes counter
gains exactly the sum of the per-cycle byte counts, and the most-recent-bytes
gauge ends at the byte count of the last cycle. -/
theorem runCycles_transmit (gz : Content → Content) (u : Uploader) (st : Stats)
    (fs : FS) (envs : List CycleEnv)
    (h : AllTransmit gz u.compress u.disableSumCheck u.lastSum envs) :
    (runCycles gz u st fs envs).2.1.totalUploadBytes
        = st.totalUploadBytes + (envs.map (fun e => (e.bytesRead : Int))).sum ∧
    ∀ elast, envs.getLast? = some elast →
        (runCycles gz u st fs envs).2.1.lastUploadBytes = (elast.bytesRead : Int) := by
  induction envs generalizing u st fs with
  | nil => simp [runCycles]
  | cons e es ih =>
    obtain ⟨p, q, c, hst, ho, hu, hpass, hrest⟩ := h
    obtain ⟨fsc, hred⟩ := upload_staged gz u st fs e p q c hst
    have hstep : u.upload gz st fs e =
        ⟨none,
          { u with lastSum := some (stagedContent gz u.compress c),
                   lastUploadTime := e.endTime,
                   lastUploadDuration := e.sinceTime - e.startTime },
          { st with numUploadsOK := st.numUploadsOK + 1,
                    totalUploadBytes := st.totalUploadBytes + e.bytesRead,
                    lastUploadBytes := (e.bytesRead : Int) },
          fsRemove fsc p, some p, true, true, false⟩ := by
      rw [hred]
      simp [dedup_cond_false u.disableSumCheck (stagedContent gz u.compress c)
        u.lastSum hpass, ho, hu]
    have ihh := ih
      { u with lastSum := some (stagedContent gz u.compress c),
               lastUploadTime := e.endTime,
               lastUploadDuration := e.sinceTime - e.startTime }
      { st with numUploadsOK := st.numUploadsOK + 1,
                totalUploadBytes := st.totalUploadBytes + e.bytesRead,
                lastUploadBytes := (e.bytesRead : Int) }
      (fsRemove fsc p) hrest
    constructor
    · simp only [runCycles, hstep]
      rw [ihh.1]
      simp [add_assoc]
    · intro elast hlast
      simp only [runCycles, hstep]
      cases es with
      | nil =>
        simp at hlast
        subst hlast
        simp [runCycles]
      | cons e2 es2 =>
        have h2 : (e2 :: es2).getLast? = some elast := by
          simpa [List.getLast?_cons_cons] using hlast
        exact ihh.2 elast h2

/-- Running the counting wrapper produces, call by call, exactly the outputs
of the bare underlying reader, advances the underlying reader identically,
and adds to `count` the sum of the byte counts the underlying reader
returned. -/
theorem runCounting_spec (s : ReadScript) (c0 : Int) (k : Nat) :
    (runCounting ⟨s, c0⟩ k).1 = (runPlain s k).1 ∧
    (runCounting ⟨s, c0⟩ k).2.count =
      c0 + ((runPlain s k).1.map (fun o => (o.1.length : Int))).sum ∧
    (runCounting ⟨s, c0⟩ k).2.reader = (runPlain s k).2 := by
  induction k generalizing s c0 with
  | zero => simp [runCounting, runPlain]
  | succ k ih =>
    cases s with
    | nil =>
      simpa [runCounting, runPlain, countingReader.Read, plainRead] using ih [] c0
    | cons r rs =>
      have hr := ih rs (c0 + r.1.length)
      simp [runCounting, runPlain, countingReader.Read, plainRead, hr.1, hr.2.1,
        hr.2.2, add_assoc]

/-- C1: in every upload cycle with dedup checking enabled
(`disableSumCheck` false) in which the digest of the staged,
possibly-compressed file equals `lastSum`, the skip counter is incremented by
exactly one, the storage client is not invoked, and the cycle returns
success. -/
theorem claim_dedup_skip (gz : Content → Content) (u : Uploader) (st : Stats)
    (fs : FS) (env : CycleEnv) (p q : String) (c : Content)
    (h : StageOK u.compress env p q c) (hd : u.disableSumCheck = false)
    (hs : u.lastSum = some (stagedContent gz u.compress c)) :
    (u.upload gz st fs env).err = none ∧
    (u.upload gz st fs env).uploadInvoked = false ∧
    (u.upload gz st fs env).st =
      { st with numUploadsSkipped := st.numUploadsSkipped + 1 } := by
  obtain ⟨fsc, hred⟩ := upload_staged gz u st fs env p q c h
  rw [hred]
  simp [SHA256Sum.Equals, hd, hs]

/-- Witness for C1 at a concrete skipping cycle. -/
theorem claim_dedup_skip_witness :
    StageOK wU1.compress wEnv1 "t" "q" [1, 2] ∧ wU1.disableSumCheck = false ∧
    wU1.lastSum = some (stagedContent gzId wU1.compress [1, 2]) ∧
    ((wU1.upload gzId wSt wFs wEnv1).err = none ∧
      (wU1.upload gzId wSt wFs wEnv1).uploadInvoked = false ∧
      (wU1.upload gzId wSt wFs wEnv1).st =
        { wSt with numUploadsSkipped := wSt.numUploadsSkipped + 1 }) :=
  ⟨⟨rfl, rfl, rfl, fun hcf => absurd hcf (by decide)⟩, rfl, rfl,
    claim_dedup_skip gzId wU1 wSt wFs wEnv1 "t" "q" [1, 2]
      ⟨rfl, rfl, rfl, fun hcf => absurd hcf (by decide)⟩ rfl rfl⟩

/-- C9: a cycle skipped by the dedup check changes nothing but the skip
counter: `lastSum`, `lastUploadTime`, `lastUploadDuration` and the other four
counters keep their prior values. -/
theorem claim_skip_frame (gz : Content → Content) (u : Uploader) (st : Stats)
    (fs : FS) (env : CycleEnv)
    (h : (u.upload gz st fs env).dedupSkipped = true) :
    (u.upload gz st fs env).u = u ∧
    (u.upload gz st fs env).st.numUploadsOK = st.numUploadsOK ∧
    (u.upload gz st fs env).st.numUploadsFail = st.numUploadsFail ∧
    (u.upload gz st fs env).st.totalUploadBytes = st.totalUploadBytes ∧
    (u.upload gz st fs env).st.lastUploadBytes = st.lastUploadBytes ∧
    (u.upload gz st fs env).st.numUploadsSkipped = st.numUploadsSkipped + 1 := by
  rcases upload_cases gz u st fs env with hc | ⟨p, fsc, e, hc⟩ | ⟨p, fsc, hc⟩ |
    ⟨p, fsc, hc⟩ | ⟨p, fsc, e, hc⟩ | ⟨p, fsc, sum, hc⟩ <;> rw [hc] at h ⊢ <;>
    simp_all

/-- Witness for C9 at a concrete skipping cycle. -/
theorem claim_skip_frame_witness :
    (wU1.upload gzId wSt wFs wEnv1).dedupSkipped = true ∧
    ((wU1.upload gzId wSt wFs wEnv1).u = wU1 ∧
      (wU1.upload gzId wSt wFs wEnv1).st.numUploadsOK = wSt.numUploadsOK ∧
      (wU1.upload gzId wSt wFs wEnv1).st.numUploadsFail = wSt.numUploadsFail ∧
      (wU1.upload gzId wSt wFs wEnv1).st.totalUploadBytes = wSt.totalUploadBytes ∧
      (wU1.upload gzId wSt wFs wEnv1).st.lastUploadBytes = wSt.lastUploadBytes ∧
      (wU1.upload gzId wSt wFs wEnv1).st.numUploadsSkipped
        = wSt.numUploadsSkipped + 1) :=
  ⟨rfl, claim_skip_frame gzId wU1 wSt wFs wEnv1 rfl⟩

/-- C2: when the storage client fails, the failure counter is incremented by
exactly one and the uploader state (`lastSum`, `lastUploadTime`,
`lastUploadDuration`) is unchanged, so an immediately following cycle staging
byte-identical content attempts transmission again instead of skipping. -/
theorem claim_transmit_fail (gz : Content → Content) (u : Uploader) (st : Stats)
    (fs : FS) (env1 env2 : CycleEnv) (p1 q1 p2 q2 : String) (c : Content)
    (e : GoErr)
    (h1 : StageOK u.compress env1 p1 q1 c) (ho1 : env1.openOk = true)
    (hu1 : env1.uploadResult = some e)
    (hpass : u.disableSumCheck = true ∨
      u.lastSum ≠ some (stagedContent gz u.compress c))
    (h2 : StageOK u.compress env2 p2 q2 c) (ho2 : env2.openOk = true) :
    (u.upload gz st fs env1).err = some e ∧
    (u.upload gz st fs env1).u = u ∧
    (u.upload gz st fs env1).st =
      { st with numUploadsFail := st.numUploadsFail + 1 } ∧
    (((u.upload gz st fs env1).u).upload gz (u.upload gz st fs env1).st
        (u.upload gz st fs env1).fs env2).uploadInvoked = true := by
  obtain ⟨fsc1, hred1⟩ := upload_staged gz u st fs env1 p1 q1 c h1
  have hcond := dedup_cond_false u.disableSumCheck
    (stagedContent gz u.compress c) u.lastSum hpass
  have hstep : u.upload gz st fs env1 =
      ⟨some e, u, { st with numUploadsFail := st.numUploadsFail + 1 },
        fsRemove fsc1 p1, some p1, true, true, false⟩ := by
    rw [hred1]
    simp [hcond, ho1, hu1]
  rw [hstep]
  refine ⟨rfl, rfl, rfl, ?_⟩
  obtain ⟨fsc2, hred2⟩ := upload_staged gz u
    { st with numUploadsFail := st.numUploadsFail + 1 }
    (fsRemove fsc1 p1) env2 p2 q2 c h2
  rw [hred2]
  simp only [hcond, ho2, Bool.not_true, Bool.false_eq_true, if_false]
  cases hur : env2.uploadResult <;> simp

/-- Witness for C2 at a concrete failing-then-retrying pair of cycles. -/
theorem claim_transmit_fail_witness :
    StageOK wU2.compress wEnvFail "t" "q" [1, 2] ∧
    wEnvFail.uploadResult = some .uploadFail ∧
    wU2.lastSum ≠ some (stagedContent gzId wU2.compress [1, 2]) ∧
    ((wU2.upload gzId wSt wFs wEnvFail).err = some .uploadFail ∧
      (wU2.upload gzId wSt wFs wEnvFail).u = wU2 ∧
      (wU2.upload gzId wSt wFs wEnvFail).st =
        { wSt with numUploadsFail := wSt.numUploadsFail + 1 } ∧
      (((wU2.upload gzId wSt wFs wEnvFail).u).upload gzId
          (wU2.upload gzId wSt wFs wEnvFail).st
          (wU2.upload gzId wSt wFs wEnvFail).fs wEnv1).uploadInvoked = true) :=
  ⟨⟨rfl, rfl, rfl, fun hcf => absurd hcf (by decide)⟩, rfl, by decide,
    claim_transmit_fail gzId wU2 wSt wFs wEnvFail wEnv1 "t" "q" "t" "q" [1, 2]
      .uploadFail ⟨rfl, rfl, rfl, fun hcf => absurd hcf (by decide)⟩ rfl rfl (Or.inr (by decide))
      ⟨rfl, rfl, rfl, fun hcf => absurd hcf (by decide)⟩ rfl⟩

/-- C3: a successful transmission sets `lastSum` to this cycle's digest,
increments the success counter by one, adds the counting-reader byte count to
the cumulative-bytes counter, sets the most-recent-bytes gauge to that count,
and records `lastUploadTime` and `lastUploadDuration`; consequently, over N
successful uploads the cumulative-bytes counter gains the sum of the byte
counts and the gauge ends at the last count. -/
theorem claim_transmit_success (gz : Content → Content) (u : Uploader)
    (st : Stats) (fs : FS) (env : CycleEnv) (p q : String) (c : Content)
    (h : StageOK u.compress env p q c) (ho : env.openOk = true)
    (hu : env.uploadResult = none)
    (hpass : u.disableSumCheck = true ∨
      u.lastSum ≠ some (stagedContent gz u.compress c)) :
    (u.upload gz st fs env).u.lastSum = some (stagedContent gz u.compress c) ∧
    (u.upload gz st fs env).st.numUploadsOK = st.numUploadsOK + 1 ∧
    (u.upload gz st fs env).st.totalUploadBytes
      = st.totalUploadBytes + env.bytesRead ∧
    (u.upload gz st fs env).st.lastUploadBytes = (env.bytesRead : Int) ∧
    (u.upload gz st fs env).u.lastUploadTime = env.endTime ∧
    (u.upload gz st fs env).u.lastUploadDuration
      = env.sinceTime - env.startTime ∧
    (∀ (u0 : Uploader) (st0 : Stats) (fs0 : FS) (envs : List CycleEnv),
      AllTransmit gz u0.compress u0.disableSumCheck u0.lastSum envs →
      ((runCycles gz u0 st0 fs0 envs).2.1.totalUploadBytes
          = st0.totalUploadBytes + (envs.map (fun e2 => (e2.bytesRead : Int))).sum ∧
        ∀ elast, envs.getLast? = some elast →
          (runCycles gz u0 st0 fs0 envs).2.1.lastUploadBytes
            = (elast.bytesRead : Int))) := by
  obtain ⟨fsc, hred⟩ := upload_staged gz u st fs env p q c h
  have hcond := dedup_cond_false u.disableSumCheck
    (stagedContent gz u.compress c) u.lastSum hpass
  refine ⟨?_, ?_, ?_, ?_, ?_, ?_,
    fun u0 st0 fs0 envs hA => runCycles_transmit gz u0 st0 fs0 envs hA⟩ <;>
    (rw [hred]; simp [hcond, ho, hu])

/-- Witness for C3 at a concrete successful transmission. -/
theorem claim_transmit_success_witness :
    wU2.lastSum ≠ some (stagedContent gzId wU2.compress [1, 2]) ∧
    ((wU2.upload gzId wSt wFs wEnv1).u.lastSum
        = some (stagedContent gzId wU2.compress [1, 2]) ∧
      (wU2.upload gzId wSt wFs wEnv1).st.numUploadsOK = wSt.numUploadsOK + 1 ∧
      (wU2.upload gzId wSt wFs wEnv1).st.totalUploadBytes
        = wSt.totalUploadBytes + wEnv1.bytesRead ∧
      (wU2.upload gzId wSt wFs wEnv1).st.lastUploadBytes
        = (wEnv1.bytesRead : Int)) := by
  have h := claim_transmit_success gzId wU2 wSt wFs wEnv1 "t" "q" [1, 2]
    ⟨rfl, rfl, rfl, fun hcf => absurd hcf (by decide)⟩ rfl rfl
    (Or.inr (by decide))
  exact ⟨by decide, h.1, h.2.1, h.2.2.1, h.2.2.2.1⟩

/-- C5: a tick with the enablement gate disabled runs no cycle and clears
`lastSum` to the "no digest" sentinel; on the next enabled tick, a cycle that
stages cleanly and opens its file invokes the storage client even when the
staged content is byte-identical to the last successfully uploaded content. -/
theorem claim_gate_disable (gz : Content → Content) (u : Uploader) (st : Stats)
    (fs : FS) (env1 env2 : CycleEnv) (p q : String) (c : Content)
    (h : StageOK u.compress env2 p q c) (ho : env2.openOk = true) :
    (u.tick gz st fs false env1).cycleRan = false ∧
    (u.tick gz st fs false env1).u = { u with lastSum := none } ∧
    (u.tick gz st fs false env1).st = st ∧
    (u.tick gz st fs false env1).fs = fs ∧
    (((u.tick gz st fs false env1).u).tick gz (u.tick gz st fs false env1).st
        (u.tick gz st fs false env1).fs true env2).uploadInvoked = true := by
  refine ⟨rfl, rfl, rfl, rfl, ?_⟩
  show (({ u with lastSum := none } : Uploader).upload gz st fs env2).uploadInvoked
    = true
  obtain ⟨fsc, hred⟩ :=
    upload_staged gz { u with lastSum := none } st fs env2 p q c h
  rw [hred]
  simp only [SHA256Sum.Equals, Bool.and_false, Bool.false_eq_true, if_false,
    ho, Bool.not_true]
  cases hur : env2.uploadResult <;> simp

/-- Witness for C5 at a concrete disabled-then-enabled pair of ticks with
content identical to the last uploaded digest. -/
theorem claim_gate_disable_witness :
    StageOK wU1.compress wEnv1 "t" "q" [1, 2] ∧ wEnv1.openOk = true ∧
    ((wU1.tick gzId wSt wFs false wEnvFail).cycleRan = false ∧
      (wU1.tick gzId wSt wFs false wEnvFail).u = { wU1 with lastSum := none } ∧
      (wU1.tick gzId wSt wFs false wEnvFail).st = wSt ∧
      (wU1.tick gzId wSt wFs false wEnvFail).fs = wFs ∧
      (((wU1.tick gzId wSt wFs false wEnvFail).u).tick gzId
          (wU1.tick gzId wSt wFs false wEnvFail).st
          (wU1.tick gzId wSt wFs false wEnvFail).fs true wEnv1).uploadInvoked
        = true) :=
  ⟨⟨rfl, rfl, rfl, fun hcf => absurd hcf (by decide)⟩, rfl,
    claim_gate_disable gzId wU1 wSt wFs wEnvFail wEnv1 "t" "q" [1, 2]
      ⟨rfl, rfl, rfl, fun hcf => absurd hcf (by decide)⟩ rfl⟩

/-- C6: with compression disabled, `compressIfNeeded` is a successful no-op;
with compression enabled, any sub-step failure returns an error and leaves
the original content present at the source path, and only on full success is
the compressed output renamed over the source path. -/
theorem claim_compress_safe (u : Uploader) (gz : Content → Content) (fs : FS)
    (path : String) (env : CompressEnv) (c : Content)
    (hfs : fs path = some c)
    (hq : ∀ q0, env.tempName = some q0 → q0 ≠ path) :
    (u.compress = false → u.compressIfNeeded gz fs path env = (none, fs)) ∧
    ((u.compressIfNeeded gz fs path env).1 ≠ none →
      (u.compressIfNeeded gz fs path env).2 path = some c) ∧
    (u.compress = true → (u.compressIfNeeded gz fs path env).1 = none →
      (u.compressIfNeeded gz fs path env).2 path = some (gz c)) := by
  cases hcm : u.compress with
  | false => simp [Uploader.compressIfNeeded, hcm, hfs]
  | true =>
    rcases htn : env.tempName with _ | q0
    · simp [Uploader.compressIfNeeded, hcm, htn, hfs]
    · have hqp := hq q0 htn
      refine ⟨by simp [hcm], ?_, ?_⟩ <;>
        cases ho : env.openOk <;> cases hcr : env.createOk <;>
        cases hcp : env.copyOk <;> cases hcl : env.closeOk <;>
        cases hrn : env.renameOk <;>
        simp_all [Uploader.compressIfNeeded, compressFromTo, fsWrite, fsRemove,
          fsRename, Ne.symm hqp]

/-- Witness for C6 at a concrete compressing invocation. -/
theorem claim_compress_safe_witness :
    wFsSrc "src" = some [3, 4] ∧
    ((wU3.compress = false →
        wU3.compressIfNeeded gzId wFsSrc "src" wCenv = (none, wFsSrc)) ∧
      ((wU3.compressIfNeeded gzId wFsSrc "src" wCenv).1 ≠ none →
        (wU3.compressIfNeeded gzId wFsSrc "src" wCenv).2 "src" = some [3, 4]) ∧
      (wU3.compress = true →
        (wU3.compressIfNeeded gzId wFsSrc "src" wCenv).1 = none →
        (wU3.compressIfNeeded gzId wFsSrc "src" wCenv).2 "src"
          = some (gzId [3, 4]))) :=
  ⟨rfl, claim_compress_safe wU3 gzId wFsSrc "src" wCenv [3, 4] rfl
    (fun q0 h0 => by cases Option.some.inj h0; decide)⟩

/-- C7: whenever the staging temp file is created, it is absent from the file
system when the cycle returns, on every exit path. -/
theorem claim_temp_removed (gz : Content → Content) (u : Uploader) (st : Stats)
    (fs : FS) (env : CycleEnv) (p : String)
    (h : (u.upload gz st fs env).tempPath = some p) :
    (u.upload gz st fs env).fs p = none := by
  rcases upload_cases gz u st fs env with hc | ⟨p0, fsc, e, hc⟩ | ⟨p0, fsc, hc⟩ |
    ⟨p0, fsc, hc⟩ | ⟨p0, fsc, e, hc⟩ | ⟨p0, fsc, sum, hc⟩ <;> rw [hc] at h ⊢
  · simp at h
  · cases Option.some.inj h; simp
  · cases Option.some.inj h; simp
  · cases Option.some.inj h; simp
  · cases Option.some.inj h; simp
  · cases Option.some.inj h; simp

/-- Witness for C7 at a concrete successful cycle. -/
theorem claim_temp_removed_witness :
    (wU2.upload gzId wSt wFs wEnv1).tempPath = some "t" ∧
    (wU2.upload gzId wSt wFs wEnv1).fs "t" = none :=
  ⟨rfl, claim_temp_removed gzId wU2 wSt wFs wEnv1 "t" rfl⟩

/-- C4 counterexample: a cycle that computes its digest and passes the dedup
decision but then fails to open the staged file touches no counter, so the
three counters gain 0 rather than 1 although the cycle reached the decision
point. -/
theorem claim_counter_sum_cex :
    (wU2.upload gzId wSt wFs wEnvOpen).reachedDecision = true ∧
    ¬((wU2.upload gzId wSt wFs wEnvOpen).st.numUploadsOK +
        (wU2.upload gzId wSt wFs wEnvOpen).st.numUploadsFail +
        (wU2.upload gzId wSt wFs wEnvOpen).st.numUploadsSkipped
      = wSt.numUploadsOK + wSt.numUploadsFail + wSt.numUploadsSkipped + 1) := by
  constructor
  · rfl
  · decide

/-- C4 (amended): the successful, failed and skipped counters together gain
exactly 1 when the cycle reaches the dedup decision point and then either
skips or invokes the storage client, and exactly 0 otherwise; in particular
neither a failure before the decision point nor a failure to open the staged
file after it touches any counter. -/
theorem claim_counter_sum (gz : Content → Content) (u : Uploader) (st : Stats)
    (fs : FS) (env : CycleEnv) :
    (((u.upload gz st fs env).dedupSkipped = true ∨
        (u.upload gz st fs env).uploadInvoked = true) →
      (u.upload gz st fs env).reachedDecision = true) ∧
    (((u.upload gz st fs env).dedupSkipped = true ∨
        (u.upload gz st fs env).uploadInvoked = true) →
      (u.upload gz st fs env).st.numUploadsOK +
        (u.upload gz st fs env).st.numUploadsFail +
        (u.upload gz st fs env).st.numUploadsSkipped
      = st.numUploadsOK + st.numUploadsFail + st.numUploadsSkipped + 1) ∧
    (¬((u.upload gz st fs env).dedupSkipped = true ∨
        (u.upload gz st fs env).uploadInvoked = true) →
      (u.upload gz st fs env).st = st) := by
  rcases upload_cases gz u st fs env with hc | ⟨p, fsc, e, hc⟩ | ⟨p, fsc, hc⟩ |
    ⟨p, fsc, hc⟩ | ⟨p, fsc, e, hc⟩ | ⟨p, fsc, sum, hc⟩ <;>
    rw [hc] <;>
    refine ⟨fun hx => ?_, fun hx => ?_, fun hx => ?_⟩ <;>
    simp_all <;> omega

/-- C10: no upload cycle decreases the successful, failed or skipped counter
or the cumulative-bytes counter. -/
theorem claim_counters_monotone (gz : Content → Content) (u : Uploader)
    (st : Stats) (fs : FS) (env : CycleEnv) :
    st.numUploadsOK ≤ (u.upload gz st fs env).st.numUploadsOK ∧
    st.numUploadsFail ≤ (u.upload gz st fs env).st.numUploadsFail ∧
    st.numUploadsSkipped ≤ (u.upload gz st fs env).st.numUploadsSkipped ∧
    st.totalUploadBytes ≤ (u.upload gz st fs env).st.totalUploadBytes := by
  rcases upload_cases gz u st fs env with hc | ⟨p, fsc, e, hc⟩ | ⟨p, fsc, hc⟩ |
    ⟨p, fsc, hc⟩ | ⟨p, fsc, e, hc⟩ | ⟨p, fsc, sum, hc⟩ <;>
    rw [hc] <;>
    refine ⟨?_, ?_, ?_, ?_⟩ <;> simp

/-- C8: the counting wrapper passes every read through unaltered (same bytes,
same error, same underlying progression) and its count after a sequence of
reads equals the sum of the byte counts the wrapped reader returned. -/
theorem claim_counting_reader (s : ReadScript) (k : Nat) :
    (runCounting ⟨s, 0⟩ k).1 = (runPlain s k).1 ∧
    (runCounting ⟨s, 0⟩ k).2.count =
      ((runPlain s k).1.map (fun o => (o.1.length : Int))).sum := by
  have h := runCounting_spec s 0 k
  exact ⟨h.1, by simpa using h.2.1⟩

end RqliteUploader
